import Mathlib

/-!
Verification of the rurl URL-routing core: a shallow embedding of the
rule matcher (internal/rules), the URL preprocessor and shortener
resolver (internal/urlhandler), and the configuration data model
(internal/config), together with theorems about them.

External Go standard-library functions (net/url parsing, regexp
compilation, HTTP transport) are modelled as explicit function
parameters (oracles); the repository's own control flow is embedded
faithfully.
-/

namespace Rurl

/-- RuleScope is a string type in the Go source (`type RuleScope string`),
so unrecognized scope values are representable. -/
abbrev RuleScope := String

/-- Scope constant: match against the entire URL. -/
def ScopeURL : RuleScope := "url"

/-- Scope constant: match against the domain part only. -/
def ScopeDomain : RuleScope := "domain"

/-- Scope constant: match against the path part only. -/
def ScopePath : RuleScope := "path"

/-- Browser record from internal/config. -/
structure Browser where
  Name : String
  BrowserID : String
  Executable : String
  BundleID : String
  ProfileArg : String
  IncognitoArg : String
deriving DecidableEq

/-- Profile record from internal/config. -/
structure Profile where
  ID : String
  Name : String
  BrowserID : String
  ProfileDir : String
deriving DecidableEq

/-- Rule record from internal/config. -/
structure Rule where
  ID : String
  Name : String
  Pattern : String
  Scope : RuleScope
  ProfileID : String
  Incognito : Bool
deriving DecidableEq

/-- ShortenerService record from internal/config. -/
structure ShortenerService where
  Domain : String
  IsSafelink : Bool
deriving DecidableEq

/-- Config aggregate from internal/config. A Lean `Config` value is
always a non-nil configuration; the Go nil-pointer guard at the top of
ApplyRules corresponds to quantifying over `Config` values here. -/
structure Config where
  DefaultProfileID : String
  Browsers : List Browser
  Profiles : List Profile
  Rules : List Rule
  Shorteners : List ShortenerService
  ManualShorteners : List ShortenerService
deriving DecidableEq

/-- FindProfileByID from internal/config: the first profile whose ID
field equals the requested id, or none (the Go version returns an
error naming the id in the none case). -/
def Config.FindProfileByID (c : Config) (id : String) : Option Profile :=
  c.Profiles.find? (fun p => p.ID == id)

/-- URL models the fields of net/url.URL that the routing core reads. -/
structure URL where
  Scheme : String
  Host : String
  Path : String
  RawQuery : String
deriving DecidableEq

/-- validOptionalPort from net/url: empty, or a colon followed by
decimal digits only. -/
def validOptionalPort : List Char → Bool
  | [] => true
  | ':' :: rest => rest.all (fun b => decide ('0' ≤ b) && decide (b ≤ '9'))
  | _ => false

/-- stripPortChars models the port-stripping half of net/url's
splitHostPort: if the suffix starting at the last colon is a valid
optional port, drop it. -/
def stripPortChars (host : List Char) : List Char :=
  let rev := host.reverse
  let afterRev := rev.takeWhile (fun c => c ≠ ':')
  if host.contains ':' && validOptionalPort (':' :: afterRev.reverse) then
    (rev.drop (afterRev.length + 1)).reverse
  else host

/-- stripBrackets models the bracket-stripping half of net/url's
splitHostPort: an IPv6 literal loses its surrounding brackets. -/
def stripBrackets (host : List Char) : List Char :=
  if host.head? = some '[' ∧ host.getLast? = some ']' then
    (host.drop 1).dropLast
  else host

/-- Hostname models net/url's URL.Hostname: the Host field without any
valid port suffix and without IPv6 brackets. -/
def URL.Hostname (u : URL) : String :=
  ⟨stripBrackets (stripPortChars u.Host.data)⟩

/-- getMatchString from internal/rules: the part of the parsed URL a
rule's pattern is tested against, chosen by the rule's scope. The Go
switch has cases for ScopeDomain and ScopePath and a default arm used
for ScopeURL and for every unrecognized scope string. -/
def getMatchString (parsedURL : URL) (scope : RuleScope) : String :=
  if scope = ScopeDomain then
    parsedURL.Hostname
  else if scope = ScopePath then
    parsedURL.Path
  else
    let base :=
      if parsedURL.Scheme ≠ "" then
        parsedURL.Scheme ++ "://" ++ parsedURL.Host ++ parsedURL.Path
      else
        parsedURL.Host ++ parsedURL.Path
    if parsedURL.RawQuery ≠ "" then base ++ "?" ++ parsedURL.RawQuery
    else base

/-- Modelled from the spec: the URL-scope match string described in the
Scope data-model section, written independently of the source for
comparison with getMatchString. -/
def matchStringSpecUrl (u : URL) : String :=
  (if u.Scheme = "" then "" else u.Scheme ++ "://") ++ u.Host ++ u.Path
    ++ (if u.RawQuery = "" then "" else "?" ++ u.RawQuery)

/-- MatchResult from internal/rules. The Go Rule field is a nullable
pointer; here it is an Option. -/
structure MatchResult where
  Rule : Option Rule
  ProfileID : String
  Incognito : Bool
deriving DecidableEq

/-- RulesError enumerates the distinct error returns of ApplyRules
(each Go fmt.Errorf call becomes one constructor carrying the data the
message interpolates). -/
inductive RulesError where
  | urlParseFailed (inputURL : String)
  | profileNotFound (profileID : String) (ruleName : String)
  | noDefaultProfile
  | defaultProfileNotFound (profileID : String)
deriving DecidableEq

/-- ruleMatches is the test the ApplyRules loop applies to one rule:
its pattern compiles and the compiled regex matches the
scope-appropriate part of the URL. The compile oracle models Go's
regexp.Compile, returning none on an invalid pattern and otherwise the
MatchString behaviour of the compiled (unanchored) regex. -/
def ruleMatches (compile : String → Option (String → Bool)) (u : URL)
    (r : Rule) : Bool :=
  match compile r.Pattern with
  | none => false
  | some re => re (getMatchString u r.Scope)

/-- sortRules is the rule ordering ApplyRules builds: a copy of the
configured rules sorted by pattern string length, descending. The Go
sort.Slice is unstable and the order of equal-length patterns is
unspecified; mergeSort picks one such order. -/
def sortRules (rules : List Rule) : List Rule :=
  rules.mergeSort (fun a b => b.Pattern.length ≤ a.Pattern.length)

/-- applyRulesLoop is the rule-scan loop of ApplyRules together with
the default-profile fallthrough the Go code reaches when the loop ends
without returning: each rule is compiled (a compile failure skips the
rule), tested against its scope's match string, and on the first match
the rule's profile is validated and the loop returns. -/
def applyRulesLoop (compile : String → Option (String → Bool))
    (cfg : Config) (u : URL) : List Rule → Except RulesError MatchResult
  | [] =>
    if cfg.DefaultProfileID = "" then
      .error .noDefaultProfile
    else
      match cfg.FindProfileByID cfg.DefaultProfileID with
      | none => .error (.defaultProfileNotFound cfg.DefaultProfileID)
      | some _ => .ok ⟨none, cfg.DefaultProfileID, false⟩
  | r :: rest =>
    match compile r.Pattern with
    | none => applyRulesLoop compile cfg u rest
    | some re =>
      if re (getMatchString u r.Scope) then
        match cfg.FindProfileByID r.ProfileID with
        | none => .error (.profileNotFound r.ProfileID r.Name)
        | some _ => .ok ⟨some r, r.ProfileID, r.Incognito⟩
      else applyRulesLoop compile cfg u rest

/-- effectiveURL is the bare-host recovery heuristic in ApplyRules: if
parsing produced an empty scheme and host but a non-empty path, the
input is re-parsed with a synthetic http scheme and the resulting host
and path are adopted. -/
def effectiveURL (parse : String → Option URL) (inputURL : String)
    (parsed : URL) : URL :=
  if parsed.Scheme = "" ∧ parsed.Host = "" ∧ parsed.Path ≠ "" then
    match parse ("http://" ++ inputURL) with
    | some tmp => { parsed with Host := tmp.Host, Path := tmp.Path }
    | none => parsed
  else parsed

/-- ApplyRules from internal/rules, parameterized by a regexp-compile
oracle and a net/url parse oracle. The Go nil-config guard is
represented by Config being a total value here; everything after the
parse step is embedded directly. -/
def ApplyRules (compile : String → Option (String → Bool))
    (parse : String → Option URL) (cfg : Config) (inputURL : String) :
    Except RulesError MatchResult :=
  match parse inputURL with
  | none => .error (.urlParseFailed inputURL)
  | some parsed =>
    applyRulesLoop compile cfg (effectiveURL parse inputURL parsed)
      (sortRules cfg.Rules)

/-- Method is the HTTP request method used by the shortener resolver. -/
inductive Method where
  | head
  | get
deriving DecidableEq

/-- Response models the two pieces of an HTTP response the resolver
reads: the status code and the Location header (empty string when the
header is absent, as Go's Header.Get reports it). -/
structure Response where
  status : Nat
  location : String
deriving DecidableEq

/-- ResolveError enumerates the distinct error returns of
ResolveShortenedURL, one constructor per Go fmt.Errorf call. The
unexpectedState constructor is the post-loop return the Go comment
marks as unreachable. -/
inductive ResolveError where
  | requestCreateFailed (url : String)
  | requestFailed (url : String)
  | missingLocation (url : String) (status : Nat)
  | locationParseFailed (location : String)
  | tooManyRedirects (shortURL : String)
  | unexpectedStatus (status : Nat) (url : String)
  | unexpectedState (shortURL : String)
deriving DecidableEq

/-- resolveLoop is the redirect-following loop of ResolveShortenedURL.
Oracles model the external world: newReq is whether http.NewRequest
succeeds for a URL, doReq is the transport (none is a failed request;
a HEAD failure on hop 0 only falls back to GET), and resolveLocation
models parsing the Location header and resolving it against the
current URL as base (none models an unparseable Location). -/
def resolveLoop (newReq : String → Bool)
    (doReq : Method → String → Option Response)
    (resolveLocation : String → String → Option String)
    (shortURL : String) (maxRedirects : Nat) :
    Nat → String → Except ResolveError String
  | i, currentURL =>
    if _h : i < maxRedirects then
      if newReq currentURL then
        let respOpt :=
          match doReq .head currentURL with
          | some resp => some resp
          | none => if i = 0 then doReq .get currentURL else none
        match respOpt with
        | none => .error (.requestFailed currentURL)
        | some resp =>
          if 300 ≤ resp.status ∧ resp.status < 400 then
            if resp.location = "" then
              .error (.missingLocation currentURL resp.status)
            else
              match resolveLocation currentURL resp.location with
              | none => .error (.locationParseFailed resp.location)
              | some nextURL =>
                if i = maxRedirects - 1 then
                  .error (.tooManyRedirects shortURL)
                else
                  resolveLoop newReq doReq resolveLocation shortURL
                    maxRedirects (i + 1) nextURL
          else if 200 ≤ resp.status ∧ resp.status < 300 then
            .ok currentURL
          else
            .error (.unexpectedStatus resp.status currentURL)
      else .error (.requestCreateFailed currentURL)
    else .error (.unexpectedState shortURL)
termination_by i _ => maxRedirects - i

/-- ResolveShortenedURL from internal/urlhandler: follow redirects hop
by hop starting at hop index 0, with maxRedirects fixed at 5. -/
def ResolveShortenedURL (newReq : String → Bool)
    (doReq : Method → String → Option Response)
    (resolveLocation : String → String → Option String)
    (shortURL : String) : Except ResolveError String :=
  resolveLoop newReq doReq resolveLocation shortURL 5 0 shortURL

/-- ProcessError is the error component of ProcessURL's return; the
only non-nil error the Go code produces is the wrapped input-URL parse
failure. -/
inductive ProcessError where
  | parseFailed (inputURL : String)
deriving DecidableEq

/-- ProcessResult is the four-value return of ProcessURL. -/
structure ProcessResult where
  urlForMatching : String
  originalURL : String
  isSafelink : Bool
  err : Option ProcessError
deriving DecidableEq

/-- findShortener is the hostname lookup in ProcessURL: the manual
shortener list is checked first, then the built-in list; domains match
exactly. -/
def findShortener (cfg : Config) (hostname : String) :
    Option ShortenerService :=
  match cfg.ManualShorteners.find? (fun s => s.Domain == hostname) with
  | some s => some s
  | none => cfg.Shorteners.find? (fun s => s.Domain == hostname)

/-- ProcessURL from internal/urlhandler, parameterized by the net/url
parse oracle and by a resolve oracle standing for ResolveShortenedURL
applied to the ambient HTTP world. A parse failure returns the input
with a non-nil wrapped error; only http and https URLs are checked
against the shortener lists; a resolution failure degrades to the
original URL with a nil error. -/
def ProcessURL (parse : String → Option URL)
    (resolve : String → Except ResolveError String)
    (cfg : Config) (inputURL : String) : ProcessResult :=
  match parse inputURL with
  | none => ⟨inputURL, inputURL, false, some (.parseFailed inputURL)⟩
  | some parsedURL =>
    if parsedURL.Scheme = "http" ∨ parsedURL.Scheme = "https" then
      match findShortener cfg parsedURL.Hostname with
      | some matchedShortener =>
        match resolve inputURL with
        | .error _ => ⟨inputURL, inputURL, false, none⟩
        | .ok resolved =>
          ⟨resolved, inputURL, matchedShortener.IsSafelink, none⟩
      | none => ⟨inputURL, inputURL, false, none⟩
    else ⟨inputURL, inputURL, false, none⟩

/-- urlToLaunch is the launch-target selection in runRootCmd
(internal/cli/root.go): the resolved URL is launched unless the
safelink flag is set, in which case the original URL is launched; rule
matching always receives the resolved URL. -/
def urlToLaunch (resolvedURL originalURL : String) (isSafelink : Bool) :
    String :=
  if isSafelink then originalURL else resolvedURL

/-- hasSub decides unanchored containment of needle in hay. It is the
matching behaviour of a Go regexp compiled from a metacharacter-free
pattern. -/
def hasSub (needle : List Char) : List Char → Bool
  | [] => needle.isEmpty
  | c :: t => needle.isPrefixOf (c :: t) || hasSub needle t

/-- litCompile is a concrete regexp-compile oracle for witnesses: it
models regexp.Compile on metacharacter-free patterns, where
compilation always succeeds and MatchString is unanchored substring
containment. -/
def litCompile (p : String) : Option (String → Bool) :=
  some (fun s => hasSub p.data s.data)

/-- litCompileBad is a concrete regexp-compile oracle for witnesses
that need an invalid pattern: a single opening parenthesis does not
compile in Go (missing closing parenthesis); other patterns behave as
in litCompile. -/
def litCompileBad (p : String) : Option (String → Bool) :=
  if p = "(" then none else some (fun s => hasSub p.data s.data)

/-- defaultFallback is the result ApplyRules builds when no rule
matched, written out for reuse in statements. -/
def defaultFallback (cfg : Config) : Except RulesError MatchResult :=
  if cfg.DefaultProfileID = "" then
    .error .noDefaultProfile
  else
    match cfg.FindProfileByID cfg.DefaultProfileID with
    | none => .error (.defaultProfileNotFound cfg.DefaultProfileID)
    | some _ => .ok ⟨none, cfg.DefaultProfileID, false⟩

/-- matchedResult is the result ApplyRules builds from the first
matching rule, written out for reuse in statements. -/
def matchedResult (cfg : Config) (r : Rule) :
    Except RulesError MatchResult :=
  match cfg.FindProfileByID r.ProfileID with
  | none => .error (.profileNotFound r.ProfileID r.Name)
  | some _ => .ok ⟨some r, r.ProfileID, r.Incognito⟩

/-- applyRulesLoop returns the matchedResult of the first rule passing
ruleMatches, and the defaultFallback when none does. -/
lemma applyRulesLoop_eq_find (compile : String → Option (String → Bool))
    (cfg : Config) (u : URL) (l : List Rule) :
    applyRulesLoop compile cfg u l =
      match l.find? (ruleMatches compile u) with
      | some r => matchedResult cfg r
      | none => defaultFallback cfg := by
  induction l with
  | nil => rfl
  | cons r rest ih =>
    simp only [List.find?]
    rcases hc : compile r.Pattern with _ | re
    · have hm : ruleMatches compile u r = false := by
        simp [ruleMatches, hc]
      rw [hm]
      simpa [applyRulesLoop, hc] using ih
    · rcases hre : re (getMatchString u r.Scope) with _ | _
      · have hm : ruleMatches compile u r = false := by
          simp [ruleMatches, hc, hre]
        rw [hm]
        simpa [applyRulesLoop, hc, hre] using ih
      · have hm : ruleMatches compile u r = true := by
          simp [ruleMatches, hc, hre]
        rw [hm]
        simp [applyRulesLoop, hc, hre, matchedResult]

/-- sortRules permutes the rule list it is given. -/
lemma sortRules_perm (rules : List Rule) : (sortRules rules).Perm rules :=
  List.mergeSort_perm rules _

/-- sortRules output is pairwise ordered by pattern length, descending. -/
lemma sortRules_sorted (rules : List Rule) :
    (sortRules rules).Pairwise
      (fun a b => b.Pattern.length ≤ a.Pattern.length) := by
  have h := @List.sorted_mergeSort Rule
    (fun a b => decide (b.Pattern.length ≤ a.Pattern.length))
    (fun a b c hab hbc => by
      simp only [decide_eq_true_eq] at *
      omega)
    (fun a b => by
      simp only [Bool.or_eq_true, decide_eq_true_eq]
      omega)
    rules
  simpa [sortRules] using h

/-- find? over a list pairwise-sorted by descending pattern length
returns an element whose pattern length dominates that of every
element of the list satisfying the predicate. -/
lemma find_sorted_max {p : Rule → Bool} {l : List Rule}
    (hs : l.Pairwise (fun a b => b.Pattern.length ≤ a.Pattern.length))
    {r : Rule} (h : l.find? p = some r) {q : Rule} (hq : q ∈ l)
    (hpq : p q = true) : q.Pattern.length ≤ r.Pattern.length := by
  induction l with
  | nil => simp at hq
  | cons a t ih =>
    rw [List.pairwise_cons] at hs
    rcases ha : p a with _ | _
    · rw [List.find?, ha] at h
      rcases List.mem_cons.mp hq with rfl | hq
      · rw [ha] at hpq; exact absurd hpq (by simp)
      · exact ih hs.2 h hq
    · rw [List.find?, ha] at h
      injection h with h
      subst h
      rcases List.mem_cons.mp hq with rfl | hq
      · exact le_refl _
      · exact hs.1 q hq

/-- hasSub with an empty needle matches every haystack. -/
lemma hasSub_nil (l : List Char) : hasSub [] l = true := by
  cases l <;> rfl

/-- sortRules on the empty list is the empty list. -/
lemma sortRules_nil : sortRules [] = [] :=
  List.perm_nil.mp (sortRules_perm [])

/-- sortRules on a one-element list is that list. -/
lemma sortRules_singleton (r : Rule) : sortRules [r] = [r] :=
  List.perm_singleton.mp (sortRules_perm [r])

/-- Fixture rule for witnesses: URL-scoped pattern naming an existing
profile. -/
def ruleW : Rule := ⟨"r1", "Work", "work", ScopeURL, "work-profile", true⟩

/-- Fixture profile for witnesses. -/
def profileW : Profile := ⟨"work-profile", "Work Profile", "chrome", "Default"⟩

/-- Fixture parsed URL for witnesses. -/
def urlW : URL := ⟨"https", "example.com", "/work", ""⟩

/-- Fixture parse oracle for witnesses: parses exactly the fixture
input string, to its parsed form. -/
def parseW : String → Option URL :=
  fun s => if s = "https://example.com/work" then some urlW else none

/-- Fixture config for witnesses: one rule, its profile present. -/
def cfgW : Config := ⟨"work-profile", [], [profileW], [ruleW], [], []⟩

/-- C4: for a parsed URL, the scope-dependent match substring is the
hostname for scope domain, the path for scope path, and for scope url
and every unrecognized scope value the string scheme://host+path with
the query appended after a question mark exactly when it is non-empty
and the scheme prefix omitted exactly when the scheme is empty. -/
theorem getMatchString_scope_cases (u : URL) (scope : RuleScope) :
    getMatchString u scope =
      if scope = ScopeDomain then u.Hostname
      else if scope = ScopePath then u.Path
      else matchStringSpecUrl u := by
  by_cases hd : scope = ScopeDomain
  · simp [getMatchString, hd]
  · by_cases hp : scope = ScopePath
    · simp [getMatchString, hd, hp]
    · by_cases hs : u.Scheme = "" <;>
        by_cases hq : u.RawQuery = "" <;>
        simp [getMatchString, matchStringSpecUrl, hd, hp, hs, hq,
          String.append_assoc]

/-- C1: when ApplyRules succeeds with a matched rule, that rule's
compiled pattern matches its scope substring, the rule comes from the
configured rules, and its pattern length dominates the pattern length
of every configured rule that compiles and matches; hence for two
matching rules of different pattern lengths the shorter one is never
the returned rule, whatever their relative order in cfg.Rules. The
scan order itself is definitional: applyRulesLoop consumes
sortRules cfg.Rules and returns at the first match. -/
theorem applyRules_longest_pattern_wins
    (compile : String → Option (String → Bool))
    (parse : String → Option URL) (cfg : Config) (inputURL : String)
    (parsed : URL) (res : MatchResult) (r : Rule)
    (hparse : parse inputURL = some parsed)
    (hres : ApplyRules compile parse cfg inputURL = .ok res)
    (hrule : res.Rule = some r) :
    ruleMatches compile (effectiveURL parse inputURL parsed) r = true ∧
    r ∈ cfg.Rules ∧
    ∀ q ∈ cfg.Rules,
      ruleMatches compile (effectiveURL parse inputURL parsed) q = true →
      q.Pattern.length ≤ r.Pattern.length := by
  unfold ApplyRules at hres
  simp only [hparse] at hres
  rw [applyRulesLoop_eq_find] at hres
  rcases hfind : (sortRules cfg.Rules).find?
      (ruleMatches compile (effectiveURL parse inputURL parsed))
    with _ | r0
  · simp only [hfind] at hres
    unfold defaultFallback at hres
    by_cases hdp : cfg.DefaultProfileID = ""
    · simp [hdp] at hres
    · rcases hfp : cfg.FindProfileByID cfg.DefaultProfileID with _ | p
      · simp [hdp, hfp] at hres
      · simp only [if_neg hdp, hfp, Except.ok.injEq] at hres
        rw [← hres] at hrule
        simp at hrule
  · simp only [hfind] at hres
    unfold matchedResult at hres
    rcases hfp : cfg.FindProfileByID r0.ProfileID with _ | p
    · simp only [hfp] at hres
      exact absurd hres (by simp)
    · simp only [hfp, Except.ok.injEq] at hres
      rw [← hres] at hrule
      simp only [Option.some.injEq] at hrule
      subst hrule
      have hperm := sortRules_perm cfg.Rules
      refine ⟨List.find?_some hfind, ?_, ?_⟩
      · exact hperm.mem_iff.mp (List.mem_of_find?_eq_some hfind)
      · intro q hq hpq
        exact find_sorted_max (sortRules_sorted cfg.Rules) hfind
          (hperm.mem_iff.mpr hq) hpq

/-- Witness for C1 at a concrete config with one matching rule. -/
theorem applyRules_longest_pattern_wins_witness :
    ruleMatches litCompile
      (effectiveURL parseW "https://example.com/work" urlW) ruleW = true ∧
    ruleW ∈ cfgW.Rules ∧
    ∀ q ∈ cfgW.Rules,
      ruleMatches litCompile
        (effectiveURL parseW "https://example.com/work" urlW) q = true →
      q.Pattern.length ≤ ruleW.Pattern.length := by
  refine applyRules_longest_pattern_wins litCompile parseW cfgW
    "https://example.com/work" urlW ⟨some ruleW, "work-profile", true⟩
    ruleW rfl ?_ rfl
  show applyRulesLoop litCompile cfgW
      (effectiveURL parseW "https://example.com/work" urlW)
      (sortRules cfgW.Rules) = _
  rw [show cfgW.Rules = [ruleW] from rfl, sortRules_singleton]
  rfl

/-- C2: when the first rule of the sorted scan whose pattern matches
names a profile id absent from the configured profiles, ApplyRules
returns the profileNotFound error carrying both the missing profile id
and the rule's name; in particular it does not return the
default-profile fallback result. -/
theorem applyRules_matched_rule_missing_profile
    (compile : String → Option (String → Bool))
    (parse : String → Option URL) (cfg : Config) (inputURL : String)
    (parsed : URL) (r : Rule)
    (hparse : parse inputURL = some parsed)
    (hfind : (sortRules cfg.Rules).find?
      (ruleMatches compile (effectiveURL parse inputURL parsed)) = some r)
    (habs : ∀ p ∈ cfg.Profiles, p.ID ≠ r.ProfileID) :
    ApplyRules compile parse cfg inputURL =
      .error (.profileNotFound r.ProfileID r.Name) := by
  have hfp : cfg.FindProfileByID r.ProfileID = none := by
    unfold Config.FindProfileByID
    rw [List.find?_eq_none]
    intro p hp
    simpa using habs p hp
  unfold ApplyRules
  simp only [hparse]
  rw [applyRulesLoop_eq_find]
  simp only [hfind]
  unfold matchedResult
  simp only [hfp]

/-- Fixture config for the C2 witness: one matching rule whose profile
id names no configured profile. -/
def cfgMissingW : Config := ⟨"", [], [], [ruleW], [], []⟩

/-- Witness for C2 at a concrete config whose only rule matches but
references a missing profile. -/
theorem applyRules_matched_rule_missing_profile_witness :
    ApplyRules litCompile parseW cfgMissingW "https://example.com/work" =
      .error (.profileNotFound "work-profile" "Work") := by
  refine applyRules_matched_rule_missing_profile litCompile parseW
    cfgMissingW "https://example.com/work" urlW ruleW rfl ?_ (by simp [cfgMissingW])
  rw [show cfgMissingW.Rules = [ruleW] from rfl, sortRules_singleton]
  rfl

/-- C3: when no configured rule compiles and matches, ApplyRules
fails with noDefaultProfile when the default profile id is empty,
fails with defaultProfileNotFound when it is non-empty but names no
configured profile, and otherwise returns the fallback MatchResult
with no rule, the default profile id, and incognito false. -/
theorem applyRules_default_fallback
    (compile : String → Option (String → Bool))
    (parse : String → Option URL) (cfg : Config) (inputURL : String)
    (parsed : URL)
    (hparse : parse inputURL = some parsed)
    (hnone : ∀ r ∈ cfg.Rules,
      ruleMatches compile (effectiveURL parse inputURL parsed) r = false) :
    (cfg.DefaultProfileID = "" →
      ApplyRules compile parse cfg inputURL = .error .noDefaultProfile) ∧
    (cfg.DefaultProfileID ≠ "" →
      (∀ p ∈ cfg.Profiles, p.ID ≠ cfg.DefaultProfileID) →
      ApplyRules compile parse cfg inputURL =
        .error (.defaultProfileNotFound cfg.DefaultProfileID)) ∧
    (cfg.DefaultProfileID ≠ "" →
      ∀ p ∈ cfg.Profiles, p.ID = cfg.DefaultProfileID →
      ApplyRules compile parse cfg inputURL =
        .ok ⟨none, cfg.DefaultProfileID, false⟩) := by
  have hfind : (sortRules cfg.Rules).find?
      (ruleMatches compile (effectiveURL parse inputURL parsed)) = none := by
    rw [List.find?_eq_none]
    intro x hx
    have hxm : x ∈ cfg.Rules := (sortRules_perm cfg.Rules).mem_iff.mp hx
    simp [hnone x hxm]
  have hbase : ApplyRules compile parse cfg inputURL = defaultFallback cfg := by
    unfold ApplyRules
    simp only [hparse]
    rw [applyRulesLoop_eq_find]
    simp only [hfind]
  refine ⟨?_, ?_, ?_⟩
  · intro hdp
    rw [hbase]
    unfold defaultFallback
    simp [hdp]
  · intro hdp habs
    have hfp : cfg.FindProfileByID cfg.DefaultProfileID = none := by
      unfold Config.FindProfileByID
      rw [List.find?_eq_none]
      intro p hp
      simpa using habs p hp
    rw [hbase]
    unfold defaultFallback
    simp [hdp, hfp]
  · intro hdp p hp hpid
    have hfp : (cfg.FindProfileByID cfg.DefaultProfileID).isSome := by
      unfold Config.FindProfileByID
      rw [List.find?_isSome]
      exact ⟨p, hp, by simp [hpid]⟩
    rcases hq : cfg.FindProfileByID cfg.DefaultProfileID with _ | q
    · rw [hq] at hfp
      simp at hfp
    · rw [hbase]
      unfold defaultFallback
      simp [hdp, hq]

/-- Fixture config for the C3 witness: no rules, an existing default
profile. -/
def cfgDefaultW : Config := ⟨"work-profile", [], [profileW], [], [], []⟩

/-- Witness for C3 at a concrete ruleless config with a valid default
profile: the fallback MatchResult is returned. -/
theorem applyRules_default_fallback_witness :
    ApplyRules litCompile parseW cfgDefaultW "https://example.com/work" =
      .ok ⟨none, "work-profile", false⟩ :=
  (applyRules_default_fallback litCompile parseW cfgDefaultW
    "https://example.com/work" urlW rfl (by simp [cfgDefaultW])).2.2
    (by simp [cfgDefaultW]) profileW (by simp [cfgDefaultW]) rfl

/-- ruleMatches only holds for rules whose pattern compiles. -/
lemma ruleMatches_compiles {compile : String → Option (String → Bool)}
    {u : URL} {r : Rule} (h : ruleMatches compile u r = true) :
    (compile r.Pattern).isSome := by
  unfold ruleMatches at h
  rcases hc : compile r.Pattern with _ | re
  · rw [hc] at h
    simp at h
  · simp

/-- C5: a rule whose pattern does not compile is skipped wherever it
sits in the scan, leaving the result of the remaining scan unchanged;
a returned MatchResult's rule always has a compiling pattern; and a
profileNotFound error always names a configured rule whose pattern
compiles and matches — so a non-compiling rule neither wins a match
nor causes an error. -/
theorem applyRules_invalid_pattern_skipped
    (compile : String → Option (String → Bool)) (cfg : Config) :
    (∀ (u : URL) (l₁ l₂ : List Rule) (r : Rule),
      compile r.Pattern = none →
      applyRulesLoop compile cfg u (l₁ ++ r :: l₂) =
        applyRulesLoop compile cfg u (l₁ ++ l₂)) ∧
    (∀ (parse : String → Option URL) (inputURL : String)
      (res : MatchResult) (r : Rule),
      ApplyRules compile parse cfg inputURL = .ok res →
      res.Rule = some r → (compile r.Pattern).isSome) ∧
    (∀ (parse : String → Option URL) (inputURL : String) (parsed : URL)
      (pid name : String),
      parse inputURL = some parsed →
      ApplyRules compile parse cfg inputURL =
        .error (.profileNotFound pid name) →
      ∃ r ∈ cfg.Rules, r.ProfileID = pid ∧ r.Name = name ∧
        (compile r.Pattern).isSome ∧
        ruleMatches compile (effectiveURL parse inputURL parsed) r = true) := by
  refine ⟨?_, ?_, ?_⟩
  · intro u l₁ l₂ r hc
    induction l₁ with
    | nil =>
      simp only [List.nil_append, applyRulesLoop, hc]
    | cons a t ih =>
      simp only [List.cons_append, applyRulesLoop]
      rcases ha : compile a.Pattern with _ | re
      · exact ih
      · by_cases hm : re (getMatchString u a.Scope) = true
        · simp [hm]
        · simp only [Bool.not_eq_true] at hm
          simp [hm, ih]
  · intro parse inputURL res r hres hrule
    rcases hp : parse inputURL with _ | parsed
    · unfold ApplyRules at hres
      simp [hp] at hres
    · unfold ApplyRules at hres
      simp only [hp] at hres
      rw [applyRulesLoop_eq_find] at hres
      rcases hfind : (sortRules cfg.Rules).find?
          (ruleMatches compile (effectiveURL parse inputURL parsed))
        with _ | r0
      · simp only [hfind] at hres
        unfold defaultFallback at hres
        by_cases hdp : cfg.DefaultProfileID = ""
        · simp [hdp] at hres
        · rcases hfp : cfg.FindProfileByID cfg.DefaultProfileID with _ | p
          · simp [hdp, hfp] at hres
          · simp only [if_neg hdp, hfp, Except.ok.injEq] at hres
            rw [← hres] at hrule
            simp at hrule
      · simp only [hfind] at hres
        unfold matchedResult at hres
        rcases hfp : cfg.FindProfileByID r0.ProfileID with _ | p
        · simp only [hfp] at hres
          exact absurd hres (by simp)
        · simp only [hfp, Except.ok.injEq] at hres
          rw [← hres] at hrule
          simp only [Option.some.injEq] at hrule
          subst hrule
          exact ruleMatches_compiles (List.find?_some hfind)
  · intro parse inputURL parsed pid name hp hres
    unfold ApplyRules at hres
    simp only [hp] at hres
    rw [applyRulesLoop_eq_find] at hres
    rcases hfind : (sortRules cfg.Rules).find?
        (ruleMatches compile (effectiveURL parse inputURL parsed))
      with _ | r0
    · simp only [hfind] at hres
      unfold defaultFallback at hres
      by_cases hdp : cfg.DefaultProfileID = ""
      · simp [hdp] at hres
      · rcases hfp : cfg.FindProfileByID cfg.DefaultProfileID with _ | p
        · simp [hdp, hfp] at hres
        · simp [if_neg hdp, hfp] at hres
    · simp only [hfind] at hres
      unfold matchedResult at hres
      rcases hfp : cfg.FindProfileByID r0.ProfileID with _ | p
      · simp only [hfp, Except.error.injEq, RulesError.profileNotFound.injEq]
          at hres
        have hrm := List.find?_some hfind
        exact ⟨r0, (sortRules_perm cfg.Rules).mem_iff.mp
          (List.mem_of_find?_eq_some hfind), hres.1, hres.2,
          ruleMatches_compiles hrm, hrm⟩
      · simp only [hfp] at hres
        exact absurd hres (by simp)

/-- Fixture rule for the C5 witness whose pattern does not compile in
the litCompileBad oracle (a lone opening parenthesis). -/
def badRuleW : Rule := ⟨"r2", "Broken", "(", ScopeURL, "work-profile", false⟩

/-- Witness for C5: skipping the concrete non-compiling rule leaves
the scan over the remaining rule unchanged. -/
theorem applyRules_invalid_pattern_skipped_witness :
    applyRulesLoop litCompileBad cfgW urlW ([] ++ badRuleW :: [ruleW]) =
      applyRulesLoop litCompileBad cfgW urlW ([] ++ [ruleW]) :=
  (applyRules_invalid_pattern_skipped litCompileBad cfgW).1 urlW [] [ruleW]
    badRuleW rfl

/-- C10: a config containing a rule with an empty pattern whose
profile exists never yields the default-profile fallback: the empty
pattern compiles and matches every string under the unanchored match
oracle, so the scan always ends at some rule match (or at a
profileNotFound error for an earlier-matching rule) before the default
branch. -/
theorem applyRules_empty_pattern_no_fallback
    (compile : String → Option (String → Bool))
    (parse : String → Option URL) (cfg : Config) (inputURL : String)
    (parsed : URL) (r : Rule) (m : String → Bool)
    (hparse : parse inputURL = some parsed)
    (hr : r ∈ cfg.Rules) (hpat : r.Pattern = "")
    (_hprof : ∃ p ∈ cfg.Profiles, p.ID = r.ProfileID)
    (hcomp : compile "" = some m) (hm : ∀ s, m s = true) :
    (∀ res, ApplyRules compile parse cfg inputURL = .ok res →
      res.Rule.isSome) ∧
    ApplyRules compile parse cfg inputURL ≠ .error .noDefaultProfile ∧
    (∀ pid, ApplyRules compile parse cfg inputURL ≠
      .error (.defaultProfileNotFound pid)) := by
  have hrm : ruleMatches compile (effectiveURL parse inputURL parsed) r
      = true := by
    unfold ruleMatches
    rw [hpat, hcomp]
    exact hm _
  have hfs : ((sortRules cfg.Rules).find?
      (ruleMatches compile (effectiveURL parse inputURL parsed))).isSome := by
    rw [List.find?_isSome]
    exact ⟨r, (sortRules_perm cfg.Rules).mem_iff.mpr hr, hrm⟩
  rcases hq : (sortRules cfg.Rules).find?
      (ruleMatches compile (effectiveURL parse inputURL parsed))
    with _ | r0
  · rw [hq] at hfs
    simp at hfs
  · have hbase : ApplyRules compile parse cfg inputURL =
        matchedResult cfg r0 := by
      unfold ApplyRules
      simp only [hparse]
      rw [applyRulesLoop_eq_find]
      simp only [hq]
    unfold matchedResult at hbase
    rcases hfp : cfg.FindProfileByID r0.ProfileID with _ | p
    · simp only [hfp] at hbase
      refine ⟨?_, ?_, ?_⟩
      · intro res hres
        rw [hbase] at hres
        exact absurd hres (by simp)
      · simp [hbase]
      · simp [hbase]
    · simp only [hfp] at hbase
      refine ⟨?_, ?_, ?_⟩
      · intro res hres
        rw [hbase] at hres
        simp only [Except.ok.injEq] at hres
        rw [← hres]
        simp
      · simp [hbase]
      · simp [hbase]

/-- Fixture rule for the C10 witness: empty pattern, existing profile. -/
def emptyRuleW : Rule := ⟨"r3", "CatchAll", "", ScopeURL, "work-profile", false⟩

/-- Fixture config for the C10 witness: an empty default profile id,
so the default branch would fail if it were ever reached. -/
def cfgEmptyW : Config := ⟨"", [], [profileW], [emptyRuleW], [], []⟩

/-- Witness for C10 at a concrete config whose only rule has the empty
pattern. -/
theorem applyRules_empty_pattern_no_fallback_witness :
    (∀ res, ApplyRules litCompile parseW cfgEmptyW
      "https://example.com/work" = .ok res → res.Rule.isSome) ∧
    ApplyRules litCompile parseW cfgEmptyW "https://example.com/work" ≠
      .error .noDefaultProfile ∧
    (∀ pid, ApplyRules litCompile parseW cfgEmptyW
      "https://example.com/work" ≠
      .error (.defaultProfileNotFound pid)) :=
  applyRules_empty_pattern_no_fallback litCompile parseW cfgEmptyW
    "https://example.com/work" urlW emptyRuleW
    (fun s => hasSub "".data s.data) rfl (by simp [cfgEmptyW]) rfl
    ⟨profileW, by simp [cfgEmptyW], rfl⟩ rfl
    (fun s => hasSub_nil s.data)

/-- C6: when the input URL's hostname matches a configured shortener
domain and the resolution fails, ProcessURL returns the original input
as url_for_matching with isSafelink false and a nil error: the
resolution failure never aborts the routing flow. -/
theorem processURL_resolution_failure_degrades
    (parse : String → Option URL)
    (resolve : String → Except ResolveError String) (cfg : Config)
    (inputURL : String) (u : URL) (e : ResolveError)
    (hparse : parse inputURL = some u)
    (hscheme : u.Scheme = "http" ∨ u.Scheme = "https")
    (hshort : (findShortener cfg u.Hostname).isSome)
    (hresolve : resolve inputURL = .error e) :
    ProcessURL parse resolve cfg inputURL =
      ⟨inputURL, inputURL, false, none⟩ := by
  obtain ⟨sh, hq⟩ := Option.isSome_iff_exists.mp hshort
  unfold ProcessURL
  simp only [hparse]
  rw [if_pos hscheme]
  simp only [hq, hresolve]

/-- Fixture shortener entry marked as a safelink, for witnesses. -/
def shortenerW : ShortenerService := ⟨"t.co", true⟩

/-- Fixture config whose built-in shortener list contains the fixture
safelink domain. -/
def cfgShortW : Config := ⟨"work-profile", [], [profileW], [], [shortenerW], []⟩

/-- Fixture parse oracle mapping a shortened URL to its parsed form. -/
def parseShortW : String → Option URL :=
  fun s => if s = "https://t.co/abc" then some ⟨"https", "t.co", "/abc", ""⟩
    else none

/-- Witness for C6 at a concrete shortened URL whose resolution fails. -/
theorem processURL_resolution_failure_degrades_witness :
    ProcessURL parseShortW
      (fun s => .error (.tooManyRedirects s)) cfgShortW
      "https://t.co/abc" = ⟨"https://t.co/abc", "https://t.co/abc",
        false, none⟩ :=
  processURL_resolution_failure_degrades parseShortW
    (fun s => .error (.tooManyRedirects s)) cfgShortW "https://t.co/abc"
    ⟨"https", "t.co", "/abc", ""⟩ (.tooManyRedirects "https://t.co/abc")
    rfl (Or.inr rfl) (by decide) rfl

/-- C7: when the matched shortener is marked as a safelink and the
resolution succeeds, ProcessURL returns the resolved URL as
url_for_matching, the raw input as original_url, and isSafelink true;
the caller's launch-target selection then hands the original input,
not the resolved URL, to the launcher, while rule matching receives
url_for_matching, the resolved URL. -/
theorem processURL_safelink
    (parse : String → Option URL)
    (resolve : String → Except ResolveError String) (cfg : Config)
    (inputURL resolved : String) (u : URL) (sh : ShortenerService)
    (hparse : parse inputURL = some u)
    (hscheme : u.Scheme = "http" ∨ u.Scheme = "https")
    (hshort : findShortener cfg u.Hostname = some sh)
    (hsafe : sh.IsSafelink = true)
    (hresolve : resolve inputURL = .ok resolved) :
    ProcessURL parse resolve cfg inputURL =
      ⟨resolved, inputURL, true, none⟩ ∧
    urlToLaunch (ProcessURL parse resolve cfg inputURL).urlForMatching
      (ProcessURL parse resolve cfg inputURL).originalURL
      (ProcessURL parse resolve cfg inputURL).isSafelink = inputURL := by
  have hmain : ProcessURL parse resolve cfg inputURL =
      ⟨resolved, inputURL, true, none⟩ := by
    unfold ProcessURL
    simp only [hparse]
    rw [if_pos hscheme]
    simp only [hshort, hresolve, hsafe]
  refine ⟨hmain, ?_⟩
  rw [hmain]
  rfl

/-- Witness for C7 at a concrete safelink shortener whose resolution
succeeds. -/
theorem processURL_safelink_witness :
    ProcessURL parseShortW (fun _ => .ok "https://example.com")
      cfgShortW "https://t.co/abc" =
      ⟨"https://example.com", "https://t.co/abc", true, none⟩ ∧
    urlToLaunch (ProcessURL parseShortW
        (fun _ => .ok "https://example.com") cfgShortW
        "https://t.co/abc").urlForMatching
      (ProcessURL parseShortW (fun _ => .ok "https://example.com")
        cfgShortW "https://t.co/abc").originalURL
      (ProcessURL parseShortW (fun _ => .ok "https://example.com")
        cfgShortW "https://t.co/abc").isSafelink = "https://t.co/abc" :=
  processURL_safelink parseShortW (fun _ => .ok "https://example.com")
    cfgShortW "https://t.co/abc" "https://example.com"
    ⟨"https", "t.co", "/abc", ""⟩ shortenerW rfl (Or.inr rfl) (by decide)
    rfl rfl

/-- resolveLoop under oracles that only ever produce followable
redirect responses reaches the hop limit and fails with
tooManyRedirects, from any start index below the limit. -/
lemma resolveLoop_all_redirects
    (newReq : String → Bool) (doReq : Method → String → Option Response)
    (resolveLocation : String → String → Option String)
    (shortURL : String) (n : Nat)
    (hnew : ∀ url, newReq url = true)
    (hsome : ∀ url, (doReq Method.head url).isSome)
    (hstatus : ∀ m url resp, doReq m url = some resp →
      300 ≤ resp.status ∧ resp.status < 400 ∧ resp.location ≠ "")
    (hloc : ∀ base loc, (resolveLocation base loc).isSome) :
    ∀ (k i : Nat) (url : String), n = i + k → 0 < k →
    resolveLoop newReq doReq resolveLocation shortURL n i url =
      .error (.tooManyRedirects shortURL) := by
  intro k
  induction k with
  | zero => omega
  | succ k ih =>
    intro i url hn _
    obtain ⟨resp, hresp⟩ := Option.isSome_iff_exists.mp (hsome url)
    obtain ⟨h300, h400, hlocne⟩ := hstatus Method.head url resp hresp
    obtain ⟨nextURL, hnext⟩ :=
      Option.isSome_iff_exists.mp (hloc url resp.location)
    have hi : i < n := by omega
    unfold resolveLoop
    rw [dif_pos hi, if_pos (hnew url)]
    simp only [hresp]
    rw [if_pos ⟨h300, h400⟩, if_neg hlocne]
    simp only [hnext]
    rcases Nat.eq_zero_or_pos k with hk | hk
    · rw [if_pos (by omega)]
    · rw [if_neg (by omega)]
      exact ih (i + 1) nextURL (by omega) hk

/-- C8: when every response the resolver can see is a redirect with a
usable Location (so the loop never terminates with a success or error
status), ResolveShortenedURL fails with tooManyRedirects at the hop
cap of 5; a chain of six or more sequential 301 responses is an
instance. -/
theorem resolveShortenedURL_redirect_cap
    (newReq : String → Bool) (doReq : Method → String → Option Response)
    (resolveLocation : String → String → Option String)
    (shortURL : String)
    (hnew : ∀ url, newReq url = true)
    (hsome : ∀ url, (doReq Method.head url).isSome)
    (hstatus : ∀ m url resp, doReq m url = some resp →
      300 ≤ resp.status ∧ resp.status < 400 ∧ resp.location ≠ "")
    (hloc : ∀ base loc, (resolveLocation base loc).isSome) :
    ResolveShortenedURL newReq doReq resolveLocation shortURL =
      .error (.tooManyRedirects shortURL) :=
  resolveLoop_all_redirects newReq doReq resolveLocation shortURL 5
    hnew hsome hstatus hloc 5 0 shortURL rfl (by omega)

/-- Fixture transport oracle for the C8 witness: every request yields
a 301 redirect to a fixed location, an endless 301 chain. -/
def doReqW : Method → String → Option Response :=
  fun _ _ => some ⟨301, "https://example.com/next"⟩

/-- Witness for C8: under the endless-301 transport the resolver
reports too many redirects for a concrete shortened URL. -/
theorem resolveShortenedURL_redirect_cap_witness :
    ResolveShortenedURL (fun _ => true) doReqW (fun _ loc => some loc)
      "https://t.co/abc" = .error (.tooManyRedirects "https://t.co/abc") :=
  resolveShortenedURL_redirect_cap (fun _ => true) doReqW
    (fun _ loc => some loc) "https://t.co/abc" (fun _ => rfl)
    (fun _ => rfl)
    (fun m url resp h => by
      injection h with h
      rw [← h]
      refine ⟨by decide, by decide, by decide⟩)
    (fun _ _ => rfl)

/-- C9 counterexample: the Go code returns a non-nil wrapped parse
error for an unparseable input, while the claim asserts a nil error;
the percent-escape string here is rejected by net/url.Parse, modelled
by a parse oracle that fails on it. -/
theorem processURL_unparseable_counterexample :
    ProcessURL (fun _ => none) (fun s => .ok s) cfgShortW "%zz" =
      ⟨"%zz", "%zz", false, some (.parseFailed "%zz")⟩ ∧
    (ProcessURL (fun _ => none) (fun s => .ok s) cfgShortW "%zz").err ≠
      none :=
  ⟨rfl, by decide⟩

/-- Fixture parse oracle for a parseable URL with a non-http scheme. -/
def parseFtpW : String → Option URL :=
  fun s => if s = "ftp://example.com/x" then
    some ⟨"ftp", "example.com", "/x", ""⟩ else none

/-- C9 amended: an unparseable input is returned as itself in both URL
slots with isSafelink false and a NON-nil wrapped parse error; a
parseable input whose scheme is neither http nor https is returned
unchanged with a nil error. -/
theorem processURL_passthrough
    (parse : String → Option URL)
    (resolve : String → Except ResolveError String)
    (cfg : Config) (inputURL : String) :
    (parse inputURL = none →
      ProcessURL parse resolve cfg inputURL =
        ⟨inputURL, inputURL, false, some (.parseFailed inputURL)⟩) ∧
    (∀ u, parse inputURL = some u → u.Scheme ≠ "http" →
      u.Scheme ≠ "https" →
      ProcessURL parse resolve cfg inputURL =
        ⟨inputURL, inputURL, false, none⟩) := by
  constructor
  · intro hparse
    unfold ProcessURL
    simp only [hparse]
  · intro u hparse hh hhs
    unfold ProcessURL
    simp only [hparse]
    rw [if_neg (by simp [hh, hhs])]

/-- Witness for the amended C9, covering both branches: a concrete
unparseable input and a concrete ftp URL. -/
theorem processURL_passthrough_witness :
    ProcessURL (fun _ => none) (fun s => .ok s) cfgShortW "%zz" =
      ⟨"%zz", "%zz", false, some (.parseFailed "%zz")⟩ ∧
    ProcessURL parseFtpW (fun s => .ok s) cfgShortW
      "ftp://example.com/x" =
      ⟨"ftp://example.com/x", "ftp://example.com/x", false, none⟩ :=
  ⟨(processURL_passthrough (fun _ => none) (fun s => .ok s) cfgShortW
      "%zz").1 rfl,
   (processURL_passthrough parseFtpW (fun s => .ok s) cfgShortW
      "ftp://example.com/x").2 ⟨"ftp", "example.com", "/x", ""⟩ rfl
      (by decide) (by decide)⟩

end Rurl
